import Mathlib

/-!
# Orb-of-Night Habitat — Layout Model & Placement Validator

Shallow embedding of the layout/validation core of `script.js`:
habitat parameters and the zone list, placement validation
(boundary + collision checks from `onPointerMove`/`onPointerUp`),
the drag interaction commit/revert logic, zone management
(`addZone`, `removeZone`, `duplicateZone`, zone-editor writes),
volume computation (`updateInfo`), and JSON import/export
(`exportLayout`/`loadLayout` and the import `change` handler).

Numbers are modelled as exact rationals.  The source compares
square roots against thresholds (`Math.sqrt(...) < radius - 1.5`,
`distanceTo(...) < 2.5`); we embed those comparisons by the
equivalent square comparison `sqrtLt` and prove the equivalence
with `Real.sqrt` (`sqrtLt_iff_real_sqrt_lt`), so that every
definition stays executable.
-/

namespace Orb

/-- A 3D vector, as used for zone positions (`THREE.Vector3`). -/
structure Vec3 where
  x : ℚ
  y : ℚ
  z : ℚ
deriving DecidableEq, Repr

/-- A zone: `userData.id`, `userData.type`, `position`, and the box-geometry
dimensions (`BoxGeometry(width, height, depth)`, default `2×2×2` in `addZone`;
mutable via `updateZoneDimensions`). -/
structure Zone where
  id : Nat
  ztype : String
  position : Vec3
  dims : Vec3
deriving DecidableEq, Repr

/-- The habitat parameters as read from the control panel
(`shape`, `radius`, `height`, `crew`). -/
structure Habitat where
  shape : String
  radius : ℚ
  height : ℚ
  crew : ℤ
deriving DecidableEq, Repr

/-- The editor's layout state: habitat parameters, the `zones` array, and a
fresh-id counter standing in for `THREE.MathUtils.generateUUID()` (the source
only requires ids to be fresh and unique). -/
structure EditorState where
  habitat : Habitat
  zones : List Zone
  nextId : Nat
deriving DecidableEq, Repr

/-- `sqrtLt a b` decides `Real.sqrt a < b` without square roots
(for `0 ≤ a`): the source's `Math.sqrt(a) < b` holds iff `0 < b ∧ a < b²`.
Used to embed `Math.sqrt` / `distanceTo` threshold comparisons executably. -/
def sqrtLt (a b : ℚ) : Bool :=
  decide (0 < b) && decide (a < b * b)

/-- Squared planar distance from the habitat center:
the source computes `Math.sqrt(x*x + z*z)`. -/
def planarDistSq (p : Vec3) : ℚ :=
  p.x * p.x + p.z * p.z

/-- Squared Euclidean 3D distance between two points
(the source's `Vector3.distanceTo` squared). -/
def distSq3 (a b : Vec3) : ℚ :=
  (a.x - b.x) * (a.x - b.x) + (a.y - b.y) * (a.y - b.y) + (a.z - b.z) * (a.z - b.z)

/-- The real planar distance `Math.sqrt(x*x + z*z)` of a position. -/
noncomputable def planarDistR (p : Vec3) : ℝ :=
  Real.sqrt ((p.x : ℝ) * p.x + (p.z : ℝ) * p.z)

/-- The real Euclidean 3D distance (`Vector3.distanceTo`). -/
noncomputable def dist3R (a b : Vec3) : ℝ :=
  Real.sqrt (((a.x : ℝ) - b.x) ^ 2 + ((a.y : ℝ) - b.y) ^ 2 + ((a.z : ℝ) - b.z) ^ 2)

/-- Boundary check from `onPointerMove`/`onPointerUp`:
`distanceFromCenter < radius - 1.5` (strict). -/
def boundsOk (radius : ℚ) (p : Vec3) : Bool :=
  sqrtLt (planarDistSq p) (radius - 3/2)

/-- Collision scan from `onPointerMove`/`onPointerUp`: some other zone
(`zone !== selectedZone`, modelled by id inequality) is at distance `< 2.5`
from the proposed position. -/
def hasCollision (zones : List Zone) (zoneId : Nat) (p : Vec3) : Bool :=
  zones.any (fun z => decide (z.id ≠ zoneId) && sqrtLt (distSq3 p z.position) (5/2))

/-- Reason codes of a placement validation outcome. -/
inductive Reason where
  | OK
  | OUT_OF_BOUNDS
  | COLLISION
deriving DecidableEq, Repr

/-- Result of a placement validation. -/
structure PlacementResult where
  valid : Bool
  reason : Reason
deriving DecidableEq, Repr

/-- Placement validation as performed by the drag handlers: the boundary check
`distanceFromCenter < radius - 1.5`, the collision scan over the other zones
(`distance < 2.5`), `finalValid = isValidPlacement && !hasCollision`, and the
reported reason follows the source's feedback choice
(`hasCollision ? 'Too close to another zone' : 'Outside habitat boundary'`,
i.e. collision takes reporting precedence). -/
def validatePlacement (s : EditorState) (zoneId : Nat) (p : Vec3) : PlacementResult :=
  let bOk := boundsOk s.habitat.radius p
  let coll := hasCollision s.zones zoneId p
  let finalValid := bOk && !coll
  if finalValid then ⟨true, .OK⟩
  else if coll then ⟨false, .COLLISION⟩
  else ⟨false, .OUT_OF_BOUNDS⟩

/-- `addZone(type, position)`: creates a mesh with default `BoxGeometry(2,2,2)`
dimensions and a fresh id, places it at `position` when given, otherwise at
the random planar position `((Math.random()-0.5)*radius, 1, (Math.random()-0.5)*radius)`
(`randX`/`randZ` model the two `Math.random()` draws), and pushes it onto
`zones`.  No placement validation is performed. -/
def addZone (s : EditorState) (ztype : String) (position : Option Vec3)
    (randX randZ : ℚ) : EditorState :=
  let pos := match position with
    | some p => p
    | none => ⟨(randX - 1/2) * s.habitat.radius, 1, (randZ - 1/2) * s.habitat.radius⟩
  let zoneMesh : Zone := ⟨s.nextId, ztype, pos, ⟨2, 2, 2⟩⟩
  { s with zones := s.zones ++ [zoneMesh], nextId := s.nextId + 1 }

/-- `removeZone(id)`: removes the first zone whose `userData.id` matches;
no-op when absent. -/
def removeZone (s : EditorState) (id : Nat) : EditorState :=
  match s.zones.findIdx? (fun z => z.id = id) with
  | some i => { s with zones := s.zones.eraseIdx i }
  | none => s

/-- Overwrite the position of every zone matching `id`
(`zone.position.set(...)` on the zone object, addressed by id). -/
def setZonePos (s : EditorState) (id : Nat) (p : Vec3) : EditorState :=
  { s with zones := s.zones.map (fun z => if z.id = id then { z with position := p } else z) }

/-- Position of the first zone matching `id` (the dragged/edited zone object). -/
def posOf (s : EditorState) (id : Nat) : Vec3 :=
  match s.zones.find? (fun z => z.id = id) with
  | some z => z.position
  | none => ⟨0, 0, 0⟩

/-- `updateZonePosition()`: writes the panel's x/y/z fields straight onto
`currentEditingZone.position` — no validation of any kind. -/
def updateZonePosition (s : EditorState) (editingId : Nat) (x y z : ℚ) : EditorState :=
  setZonePos s editingId ⟨x, y, z⟩

/-- `resetZoneToDefaults()`: writes `position.set(0, 1, 0)` (and default
rotation/scale) onto the edited zone — again without validation. -/
def resetZoneToDefaults (s : EditorState) (editingId : Nat) : EditorState :=
  setZonePos s editingId ⟨0, 1, 0⟩

/-- `duplicateZone(zone)`: offsets the source position by `(3, 0, 0)` and calls
`addZone(zone.userData.type, newPosition)`; only the type travels — the source
zone's dimensions are not passed, so the duplicate gets `addZone`'s defaults. -/
def duplicateZone (s : EditorState) (zone : Zone) : EditorState :=
  let offset : Vec3 := ⟨3, 0, 0⟩
  let newPosition : Vec3 :=
    ⟨zone.position.x + offset.x, zone.position.y + offset.y, zone.position.z + offset.z⟩
  addZone s zone.ztype (some newPosition) 0 0

/-- Grid snapping inside `onPointerMove` (`gridSize = 1.0`):
`point.x = Math.round(point.x / gridSize) * gridSize`, same for `z`.
JavaScript's `Math.round` rounds half-way cases up, matching `round`. -/
def snapPoint (p : Vec3) : Vec3 :=
  let gridSize : ℚ := 1
  ⟨(round (p.x / gridSize) : ℤ) * gridSize, p.y, (round (p.z / gridSize) : ℤ) * gridSize⟩

/-- One `onPointerMove` step during a drag, at a floor intersection `point`:
snap to grid when enabled, then commit `position.set(point.x, 1, point.z)`
onto the dragged zone unconditionally (validity only drives visual feedback
during the move). -/
def onPointerMoveStep (snapOn : Bool) (s : EditorState) (zoneId : Nat)
    (point : Vec3) : EditorState :=
  let pt := if snapOn then snapPoint point else point
  setZonePos s zoneId ⟨pt.x, 1, pt.z⟩

/-- The boundary validity computed (for feedback) inside `onPointerMove`:
evaluated on the snapped point. -/
def moveStepBoundsOk (snapOn : Bool) (radius : ℚ) (point : Vec3) : Bool :=
  let pt := if snapOn then snapPoint point else point
  boundsOk radius pt

/-- `onPointerUp`: re-validate the dragged zone's (already committed) final
position; when invalid, `animateZoneToPosition` returns it to
`dragStartPosition` (the animation ends exactly at the target). -/
def onPointerUpStep (s : EditorState) (zoneId : Nat) (dragStartPosition : Vec3) :
    EditorState :=
  if (validatePlacement s zoneId (posOf s zoneId)).valid then s
  else setZonePos s zoneId dragStartPosition

/-- A complete drag interaction on the zone `zoneId`: `onPointerDown` records
`dragStartPosition`, each `onPointerMove` floor hit commits a preview position,
and `onPointerUp` validates and commits or reverts. -/
def dragInteraction (snapOn : Bool) (s : EditorState) (zoneId : Nat)
    (moves : List Vec3) : EditorState :=
  let dragStartPosition := posOf s zoneId
  let s1 := moves.foldl (fun st pt => onPointerMoveStep snapOn st zoneId pt) s
  onPointerUpStep s1 zoneId dragStartPosition

/-- The exact rational value of the IEEE-754 double `Math.PI`
(`3.141592653589793115997963…`), used by all volume formulas in `updateInfo`. -/
def mathPI : ℚ := 884279719003555 / 281474976710656

/-- Volume computation from `updateInfo`: cylinder `π·r²·h`,
dome `(2/3)·π·r³`, anything else (capsule) `π·r²·(h − 2r) + (4/3)·π·r³`. -/
def computeVolume (shape : String) (radius height : ℚ) : ℚ :=
  if shape = "cylinder" then mathPI * radius * radius * height
  else if shape = "dome" then (2/3) * mathPI * radius ^ 3
  else (mathPI * radius * radius * (height - radius * 2)) + (4/3 * mathPI * radius ^ 3)

/-- `floorArea = Math.PI * radius * radius` from `updateInfo`. -/
def floorArea (radius : ℚ) : ℚ := mathPI * radius * radius

/-- The per-astronaut volume `volume / crew` displayed by `updateInfo`. -/
def perCrewVolume (shape : String) (radius height : ℚ) (crew : ℤ) : ℚ :=
  computeVolume shape radius height / (crew : ℚ)

/-- The character for the decimal digit `d`. -/
def digitChar (d : Nat) : Char := Char.ofNat (48 + d)

/-- Decimal digit characters of `n`, most significant first
(the rendering of a nonnegative integer inside `Number.toFixed`). -/
def natToDigits (n : Nat) : List Char :=
  if _h : n < 10 then [digitChar n]
  else natToDigits (n / 10) ++ [digitChar (n % 10)]
decreasing_by exact Nat.div_lt_self (by omega) (by omega)

/-- Numeric value of a list of decimal digit characters
(most significant first). -/
def parseNatDigits (l : List Char) : Nat :=
  l.foldl (fun a c => 10 * a + (c.toNat - 48)) 0

/-- `Number.toFixed(2)`: the decimal string with exactly two fractional
digits closest to `q` (half-way cases rounded up, i.e. toward the larger
candidate), with a leading `-` when `q` is negative. -/
def toFixed2 (q : ℚ) : String :=
  let n : ℤ := round (q * 100)
  let m : Nat := n.natAbs
  let fracPart := (if m % 100 < 10 then ['0'] else []) ++ natToDigits (m % 100)
  String.mk ((if q < 0 then ['-'] else []) ++ natToDigits (m / 100) ++ '.' :: fracPart)

/-- `parseFloat` on an unsigned decimal literal `digits.digits`. -/
def parseUnsigned (l : List Char) : ℚ :=
  let ip := l.takeWhile (fun c => c ≠ '.')
  match l.dropWhile (fun c => c ≠ '.') with
  | _ :: fr => (parseNatDigits ip : ℚ) + (parseNatDigits fr : ℚ) / 10 ^ fr.length
  | [] => (parseNatDigits ip : ℚ)

/-- `parseFloat` restricted to the strings this program produces and consumes
(`-?digits.digits` decimal literals). -/
def parseFloatQ (s : String) : ℚ :=
  match s.data with
  | [] => 0
  | c :: l => if c = '-' then -(parseUnsigned l) else parseUnsigned (c :: l)

/-- The layout document's zone position: components are *strings*
(`toFixed(2)` output), the wire-format quirk of `exportLayout`. -/
structure PosDoc where
  x : String
  y : String
  z : String
deriving DecidableEq, Repr

/-- One zone entry of the layout document: `{ type, position }`. -/
structure ZoneDoc where
  ztype : String
  position : PosDoc
deriving DecidableEq, Repr

/-- The layout document built by `exportLayout` (`habitat` holds the same four
fields as the control panel, as JSON numbers/strings). -/
structure LayoutDoc where
  habitat : Habitat
  zones : List ZoneDoc
deriving DecidableEq, Repr

/-- A parsed JSON document that may be missing the `habitat` or `zones`
fields (`JSON.parse` succeeded but the document need not be well-formed;
a missing field reads as `undefined`). -/
structure RawDoc where
  habitat : Option Habitat
  zones : Option (List ZoneDoc)
deriving DecidableEq, Repr

/-- `exportLayout()`: habitat fields from the control panel, and each zone as
its type plus `toFixed(2)`-formatted position strings. -/
def exportLayout (s : EditorState) : LayoutDoc :=
  { habitat := s.habitat
  , zones := s.zones.map (fun z =>
      ⟨z.ztype, ⟨toFixed2 z.position.x, toFixed2 z.position.y, toFixed2 z.position.z⟩⟩) }

/-- `resetHabitat()`: removes every zone mesh and empties `zones`; the habitat
parameters (control-panel values) are untouched. -/
def resetHabitatState (s : EditorState) : EditorState :=
  { s with zones := [] }

/-- `loadLayout(layout)` with JavaScript exception semantics: `resetHabitat()`
runs first; reading `.shape` of a missing `habitat` then throws (after the
zones were already cleared); with `habitat` present all four fields are
assigned; calling `forEach` on missing `zones` throws (after the habitat was
already overwritten); otherwise each document zone is re-added in file order
with its position strings parsed by `parseFloat`.  Returns
(whether an exception escaped, the state as mutated so far). -/
def loadLayoutRun (doc : RawDoc) (s : EditorState) : Bool × EditorState :=
  let s1 := resetHabitatState s
  match doc.habitat with
  | none => (true, s1)
  | some h =>
    let s2 := { s1 with habitat := h }
    match doc.zones with
    | none => (true, s2)
    | some zs =>
      (false, zs.foldl (fun st zd =>
        addZone st zd.ztype
          (some ⟨parseFloatQ zd.position.x, parseFloatQ zd.position.y,
                 parseFloatQ zd.position.z⟩) 0 0) s2)

/-- A well-formed `LayoutDoc` as a raw parsed document. -/
def docOf (d : LayoutDoc) : RawDoc := ⟨some d.habitat, some d.zones⟩

/-- `loadLayout` on a well-formed document (no exception possible). -/
def loadLayout (d : LayoutDoc) (s : EditorState) : EditorState :=
  (loadLayoutRun (docOf d) s).2

/-- Outcome of `JSON.parse` on the chosen file. -/
inductive ParseResult where
  | parseFail
  | ok (doc : RawDoc)
deriving DecidableEq

/-- The import `change` handler: `try { loadLayout(JSON.parse(text)) } catch
{ showFeedback('Invalid JSON file!') }` — a parse failure leaves the state
untouched; an exception thrown inside `loadLayout` is caught, but every
mutation it made before throwing persists. -/
def importFileChange (pr : ParseResult) (s : EditorState) : EditorState :=
  match pr with
  | .parseFail => s
  | .ok doc => (loadLayoutRun doc s).2

/-- Rounding to two decimal places, half up — the numeric effect of
`toFixed(2)` followed by `parseFloat`. -/
def round2 (q : ℚ) : ℚ := ((round (q * 100) : ℤ) : ℚ) / 100

/-- `round2` applied componentwise to a position. -/
def round2v (v : Vec3) : Vec3 := ⟨round2 v.x, round2 v.y, round2 v.z⟩

/-- The position a document zone is re-added at by `loadLayout`. -/
def parsedPos (pd : PosDoc) : Vec3 :=
  ⟨parseFloatQ pd.x, parseFloatQ pd.y, parseFloatQ pd.z⟩

/-- Sample habitat: the spec's scenario habitat (`dome`, radius 10, height 15,
crew 8). -/
def habitat10 : Habitat := ⟨"dome", 10, 15, 8⟩

/-- Sample zone at the center. -/
def zoneA : Zone := ⟨0, "sleeping", ⟨0, 1, 0⟩, ⟨2, 2, 2⟩⟩

/-- Sample zone at `(2, 1, 0)` — planar distance 2 from `zoneA`. -/
def zoneB : Zone := ⟨1, "kitchen", ⟨2, 1, 0⟩, ⟨2, 2, 2⟩⟩

/-- Editor state with the single zone `zoneA`. -/
def stateA : EditorState := ⟨habitat10, [zoneA], 1⟩

/-- Editor state with `zoneA` and `zoneB` (the spec's collision scenario). -/
def stateAB : EditorState := ⟨habitat10, [zoneA, zoneB], 2⟩

/-- Editor state for the C1 counterexample: the dragged zone sits at `(9,1,0)`
(planar distance `9 ≥ 8.5`) and another zone sits one unit away at `(9,1,1)`. -/
def stateC1 : EditorState :=
  ⟨habitat10, [⟨0, "sleeping", ⟨9, 1, 0⟩, ⟨2, 2, 2⟩⟩,
               ⟨1, "kitchen", ⟨9, 1, 1⟩, ⟨2, 2, 2⟩⟩], 2⟩

/-- Bridge: the executable `sqrtLt a b` decides `Real.sqrt a < b`
(`Real.sqrt` of a negative argument is `0`, so no sign hypothesis is needed). -/
theorem sqrtLt_iff_real_sqrt_lt (a b : ℚ) :
    sqrtLt a b = true ↔ Real.sqrt (a : ℝ) < (b : ℝ) := by
  unfold sqrtLt
  simp only [Bool.and_eq_true, decide_eq_true_eq]
  constructor
  · rintro ⟨hb, hab⟩
    have hb' : (0 : ℝ) < (b : ℝ) := by exact_mod_cast hb
    rw [Real.sqrt_lt' hb']
    have : (a : ℝ) < (b : ℝ) * (b : ℝ) := by exact_mod_cast hab
    nlinarith
  · intro h
    have hb' : (0 : ℝ) < (b : ℝ) := lt_of_le_of_lt (Real.sqrt_nonneg _) h
    have hab : (a : ℝ) < (b : ℝ) ^ 2 := (Real.sqrt_lt' hb').mp h
    constructor
    · exact_mod_cast hb'
    · have : (a : ℝ) < (b : ℝ) * (b : ℝ) := by nlinarith
      exact_mod_cast this

theorem planarDistSq_nonneg (p : Vec3) : 0 ≤ planarDistSq p := by
  unfold planarDistSq
  nlinarith [mul_self_nonneg p.x, mul_self_nonneg p.z]

theorem distSq3_nonneg (a b : Vec3) : 0 ≤ distSq3 a b := by
  unfold distSq3
  nlinarith [mul_self_nonneg (a.x - b.x), mul_self_nonneg (a.y - b.y),
    mul_self_nonneg (a.z - b.z)]

theorem planarDistR_eq (p : Vec3) :
    planarDistR p = Real.sqrt ((planarDistSq p : ℚ) : ℝ) := by
  unfold planarDistR planarDistSq; push_cast; ring_nf

theorem dist3R_eq (a b : Vec3) :
    dist3R a b = Real.sqrt ((distSq3 a b : ℚ) : ℝ) := by
  unfold dist3R distSq3; push_cast; ring_nf

theorem digitChar_toNat (d : Nat) (h : d < 10) : (digitChar d).toNat = 48 + d := by
  interval_cases d <;> decide

theorem digitChar_ne_dot (d : Nat) (h : d < 10) : digitChar d ≠ '.' := by
  interval_cases d <;> decide

theorem digitChar_ne_dash (d : Nat) (h : d < 10) : digitChar d ≠ '-' := by
  interval_cases d <;> decide

theorem natToDigits_mem (n : Nat) :
    ∀ c ∈ natToDigits n, ∃ d, d < 10 ∧ c = digitChar d := by
  induction n using natToDigits.induct with
  | case1 n h =>
    intro c hc
    rw [natToDigits, dif_pos h] at hc
    simp only [List.mem_singleton] at hc
    exact ⟨n, h, hc⟩
  | case2 n h ih =>
    intro c hc
    rw [natToDigits, dif_neg h] at hc
    rcases List.mem_append.mp hc with h1 | h2
    · exact ih c h1
    · simp only [List.mem_singleton] at h2
      exact ⟨n % 10, Nat.mod_lt _ (by omega), h2⟩

theorem natToDigits_ne_nil (n : Nat) : natToDigits n ≠ [] := by
  rw [natToDigits]
  split
  · simp
  · simp

theorem parseNatDigits_cons (c : Char) (l : List Char) (a : Nat) :
    List.foldl (fun a c => 10 * a + (c.toNat - 48)) a (c :: l)
      = List.foldl (fun a c => 10 * a + (c.toNat - 48)) (10 * a + (c.toNat - 48)) l := rfl

theorem parseNatDigits_from (l : List Char) :
    ∀ a : Nat, List.foldl (fun a c => 10 * a + (c.toNat - 48)) a l
      = a * 10 ^ l.length + parseNatDigits l := by
  induction l with
  | nil => intro a; simp [parseNatDigits]
  | cons c cs ih =>
    intro a
    rw [parseNatDigits_cons, ih]
    conv_rhs => rw [parseNatDigits, parseNatDigits_cons, ih]
    simp only [List.length_cons, pow_succ]
    show _ = a * (10 ^ cs.length * 10) + ((10 * 0 + (c.toNat - 48)) * 10 ^ cs.length
      + List.foldl (fun a c => 10 * a + (c.toNat - 48)) 0 cs)
    simp only [parseNatDigits]
    ring

theorem parseNatDigits_natToDigits (n : Nat) :
    parseNatDigits (natToDigits n) = n := by
  induction n using natToDigits.induct with
  | case1 n h =>
    rw [natToDigits, dif_pos h]
    simp [parseNatDigits, digitChar_toNat n h]
  | case2 n h ih =>
    rw [natToDigits, dif_neg h]
    unfold parseNatDigits
    rw [List.foldl_append]
    have hmod : n % 10 < 10 := Nat.mod_lt _ (by omega)
    show List.foldl _ (parseNatDigits (natToDigits (n / 10))) [digitChar (n % 10)] = n
    rw [ih]
    simp only [List.foldl_cons, List.foldl_nil, digitChar_toNat _ hmod]
    omega

theorem natToDigits_length_lt_ten (n : Nat) (h : n < 10) :
    (natToDigits n).length = 1 := by
  rw [natToDigits, dif_pos h]
  rfl

theorem natToDigits_length_two (n : Nat) (h1 : 10 ≤ n) (h2 : n < 100) :
    (natToDigits n).length = 2 := by
  rw [natToDigits, dif_neg (by omega)]
  have : n / 10 < 10 := by omega
  simp [natToDigits_length_lt_ten _ this]

theorem takeWhile_digits_dot (l1 l2 : List Char) (h : ∀ c ∈ l1, c ≠ '.') :
    (l1 ++ '.' :: l2).takeWhile (fun c => c ≠ '.') = l1 := by
  induction l1 with
  | nil => simp [List.takeWhile]
  | cons c cs ih =>
    have hc : c ≠ '.' := h c (List.mem_cons_self c cs)
    simp only [List.cons_append, List.takeWhile_cons]
    rw [if_pos (by simpa using hc)]
    rw [ih (fun d hd => h d (List.mem_cons_of_mem c hd))]

theorem dropWhile_digits_dot (l1 l2 : List Char) (h : ∀ c ∈ l1, c ≠ '.') :
    (l1 ++ '.' :: l2).dropWhile (fun c => c ≠ '.') = '.' :: l2 := by
  induction l1 with
  | nil => simp [List.dropWhile]
  | cons c cs ih =>
    have hc : c ≠ '.' := h c (List.mem_cons_self c cs)
    simp only [List.cons_append, List.dropWhile_cons]
    rw [if_pos (by simpa using hc)]
    exact ih (fun d hd => h d (List.mem_cons_of_mem c hd))

theorem fracPart_spec (r : Nat) (h : r < 100) :
    ((if r < 10 then ['0'] else []) ++ natToDigits r).length = 2
    ∧ parseNatDigits ((if r < 10 then ['0'] else []) ++ natToDigits r) = r := by
  by_cases h10 : r < 10
  · rw [if_pos h10]
    refine ⟨by simp [natToDigits_length_lt_ten r h10], ?_⟩
    unfold parseNatDigits
    rw [List.cons_append, List.nil_append, List.foldl_cons]
    have h0 : (10 * 0 + ('0'.toNat - 48)) = 0 := by decide
    rw [h0]
    exact parseNatDigits_natToDigits r
  · rw [if_neg h10]
    rw [List.nil_append]
    exact ⟨natToDigits_length_two r (by omega) h, parseNatDigits_natToDigits r⟩

theorem parseUnsigned_print (m : Nat) :
    parseUnsigned (natToDigits (m / 100) ++ '.' ::
      ((if m % 100 < 10 then ['0'] else []) ++ natToDigits (m % 100)))
    = (m : ℚ) / 100 := by
  have hdig : ∀ c ∈ natToDigits (m / 100), c ≠ '.' := by
    intro c hc
    obtain ⟨d, hd, rfl⟩ := natToDigits_mem _ c hc
    exact digitChar_ne_dot d hd
  obtain ⟨hlen, hval⟩ := fracPart_spec (m % 100) (Nat.mod_lt _ (by norm_num))
  unfold parseUnsigned
  rw [takeWhile_digits_dot _ _ hdig, dropWhile_digits_dot _ _ hdig]
  show (parseNatDigits (natToDigits (m / 100)) : ℚ)
      + (parseNatDigits ((if m % 100 < 10 then ['0'] else []) ++ natToDigits (m % 100)) : ℚ)
        / 10 ^ ((if m % 100 < 10 then ['0'] else []) ++ natToDigits (m % 100)).length
      = (m : ℚ) / 100
  rw [parseNatDigits_natToDigits, hval, hlen]
  have key : (100 : ℚ) * ((m / 100 : Nat) : ℚ) + ((m % 100 : Nat) : ℚ) = (m : ℚ) := by
    exact_mod_cast congrArg (Nat.cast (R := ℚ)) (Nat.div_add_mod m 100)
  have h100 : ((10 : ℚ) ^ (2 : Nat)) = 100 := by norm_num
  rw [h100]
  field_simp
  linarith

theorem parseFloatQ_mk_neg (l : List Char) :
    parseFloatQ (String.mk ('-' :: l)) = -(parseUnsigned l) := by
  rfl

theorem parseFloatQ_mk_of_ne (c : Char) (l : List Char) (h : c ≠ '-') :
    parseFloatQ (String.mk (c :: l)) = parseUnsigned (c :: l) := by
  show (if c = '-' then -(parseUnsigned l) else parseUnsigned (c :: l)) = _
  rw [if_neg h]

theorem toFixed2_eq (q : ℚ) :
    toFixed2 q = String.mk ((if q < 0 then ['-'] else [])
      ++ natToDigits ((round (q * 100)).natAbs / 100) ++ '.' ::
        ((if (round (q * 100)).natAbs % 100 < 10 then ['0'] else [])
          ++ natToDigits ((round (q * 100)).natAbs % 100))) := rfl

theorem parseFloatQ_print (m : Nat) :
    parseFloatQ (String.mk (natToDigits (m / 100) ++ '.' ::
      ((if m % 100 < 10 then ['0'] else []) ++ natToDigits (m % 100))))
    = (m : ℚ) / 100 := by
  cases hip : natToDigits (m / 100) with
  | nil => exact absurd hip (natToDigits_ne_nil _)
  | cons c cs =>
    have hmem : c ∈ natToDigits (m / 100) := by rw [hip]; exact List.mem_cons_self c cs
    have hc : c ≠ '-' := by
      obtain ⟨d, hd, rfl⟩ := natToDigits_mem _ c hmem
      exact digitChar_ne_dash d hd
    have hl : natToDigits (m / 100) ++ '.' ::
        ((if m % 100 < 10 then ['0'] else []) ++ natToDigits (m % 100))
        = c :: (cs ++ '.' ::
            ((if m % 100 < 10 then ['0'] else []) ++ natToDigits (m % 100))) := by
      rw [hip, List.cons_append]
    rw [List.cons_append, parseFloatQ_mk_of_ne c _ hc, ← hl, parseUnsigned_print]

/-- The numeric round-trip of the wire format: formatting with `toFixed(2)` and
parsing back with `parseFloat` rounds to two decimal places (half up). -/
theorem parseFloatQ_toFixed2 (q : ℚ) : parseFloatQ (toFixed2 q) = round2 q := by
  rw [toFixed2_eq]
  by_cases hq : q < 0
  · rw [if_pos hq, List.singleton_append, List.cons_append, parseFloatQ_mk_neg,
      parseUnsigned_print]
    have hn0 : round (q * 100) ≤ 0 := by
      rw [round_eq]
      have hle : q * 100 + 1 / 2 ≤ (0 : ℚ) + 1 / 2 := by linarith
      calc ⌊q * 100 + 1 / 2⌋ ≤ ⌊(0 : ℚ) + 1 / 2⌋ := Int.floor_le_floor hle
        _ = 0 := by norm_num
    unfold round2
    have habs : (((round (q * 100)).natAbs : ℚ)) = -((round (q * 100) : ℤ) : ℚ) := by
      rw [Int.cast_natAbs]
      exact_mod_cast abs_of_nonpos hn0
    rw [habs]
    ring
  · rw [if_neg hq, List.nil_append, parseFloatQ_print]
    have hn0 : 0 ≤ round (q * 100) := by
      rw [round_eq]
      apply Int.le_floor.mpr
      push_cast
      linarith [not_lt.mp hq]
    unfold round2
    congr 1
    rw [Int.cast_natAbs]
    exact_mod_cast abs_of_nonneg hn0

theorem boundsOk_iff (radius : ℚ) (p : Vec3) :
    boundsOk radius p = true ↔ planarDistR p < (radius : ℝ) - 1.5 := by
  unfold boundsOk
  rw [sqrtLt_iff_real_sqrt_lt, planarDistR_eq]
  constructor <;> intro h <;> [skip; skip] <;>
    · push_cast at h ⊢
      convert h using 2
      norm_num

theorem hasCollision_iff_exists (zones : List Zone) (zoneId : Nat) (p : Vec3) :
    hasCollision zones zoneId p = true
      ↔ ∃ z ∈ zones, z.id ≠ zoneId ∧ dist3R p z.position < 2.5 := by
  unfold hasCollision
  rw [List.any_eq_true]
  apply exists_congr
  intro z
  rw [and_congr_right_iff]
  intro _hz
  rw [Bool.and_eq_true, decide_eq_true_eq]
  apply and_congr_right
  intro _hid
  rw [sqrtLt_iff_real_sqrt_lt, dist3R_eq]
  constructor <;> intro h <;>
    · push_cast at h ⊢
      convert h using 2
      norm_num

theorem validatePlacement_valid_iff (s : EditorState) (zoneId : Nat) (p : Vec3) :
    (validatePlacement s zoneId p).valid = true
      ↔ (boundsOk s.habitat.radius p = true ∧ hasCollision s.zones zoneId p = false) := by
  unfold validatePlacement
  by_cases hb : boundsOk s.habitat.radius p = true <;>
    by_cases hc : hasCollision s.zones zoneId p = true <;>
      simp_all

theorem validatePlacement_reason_collision_iff (s : EditorState) (zoneId : Nat) (p : Vec3) :
    (validatePlacement s zoneId p).reason = Reason.COLLISION
      ↔ hasCollision s.zones zoneId p = true := by
  unfold validatePlacement
  by_cases hb : boundsOk s.habitat.radius p = true <;>
    by_cases hc : hasCollision s.zones zoneId p = true <;>
      simp_all

theorem validatePlacement_reason_oob_iff (s : EditorState) (zoneId : Nat) (p : Vec3) :
    (validatePlacement s zoneId p).reason = Reason.OUT_OF_BOUNDS
      ↔ (boundsOk s.habitat.radius p = false ∧ hasCollision s.zones zoneId p = false) := by
  unfold validatePlacement
  by_cases hb : boundsOk s.habitat.radius p = true <;>
    by_cases hc : hasCollision s.zones zoneId p = true <;>
      simp_all

theorem setZonePos_setZonePos (s : EditorState) (id : Nat) (p p' : Vec3) :
    setZonePos (setZonePos s id p) id p' = setZonePos s id p' := by
  unfold setZonePos
  simp only [List.map_map]
  congr 1
  apply List.map_congr_left
  intro z _hz
  by_cases h : z.id = id <;> simp [Function.comp, h]

theorem map_eq_self_of (l : List Zone) (f : Zone → Zone) (h : ∀ z ∈ l, f z = z) :
    l.map f = l := by
  induction l with
  | nil => rfl
  | cons a l ih =>
    rw [List.map_cons, h a (List.mem_cons_self a l),
      ih (fun z hz => h z (List.mem_cons_of_mem a hz))]

theorem setZonePos_posOf_self (s : EditorState) (id : Nat)
    (hnd : (s.zones.map Zone.id).Nodup) :
    setZonePos s id (posOf s id) = s := by
  unfold setZonePos
  have hz : s.zones.map
      (fun z => if z.id = id then { z with position := posOf s id } else z) = s.zones := by
    apply map_eq_self_of
    intro z hz
    by_cases h : z.id = id
    · rw [if_pos h]
      have hfind : s.zones.find? (fun w => w.id = id) = some z := by
        cases hf : s.zones.find? (fun w => w.id = id) with
        | none =>
          rw [List.find?_eq_none] at hf
          exact absurd (by simpa using h) (hf z hz)
        | some w =>
          have hw : w ∈ s.zones := List.mem_of_find?_eq_some hf
          have hwid : w.id = id := by simpa using List.find?_some hf
          have : z = w :=
            List.inj_on_of_nodup_map hnd hz hw (by rw [h, hwid])
          rw [this]
      unfold posOf
      rw [hfind]
    · rw [if_neg h]
  cases s
  simp_all

theorem onPointerMoveStep_eq (snapOn : Bool) (s : EditorState) (zoneId : Nat)
    (point : Vec3) :
    onPointerMoveStep snapOn s zoneId point
      = setZonePos s zoneId
          ⟨(if snapOn then snapPoint point else point).x, 1,
           (if snapOn then snapPoint point else point).z⟩ := rfl

theorem movesFold_shape (snapOn : Bool) (zoneId : Nat) (moves : List Vec3) :
    ∀ s : EditorState,
      moves.foldl (fun st pt => onPointerMoveStep snapOn st zoneId pt) s = s
      ∨ ∃ q, moves.foldl (fun st pt => onPointerMoveStep snapOn st zoneId pt) s
          = setZonePos s zoneId q := by
  induction moves with
  | nil => intro s; left; rfl
  | cons pt rest ih =>
    intro s
    rw [List.foldl_cons]
    rcases ih (onPointerMoveStep snapOn s zoneId pt) with h | ⟨q, h⟩
    · right
      exact ⟨_, by rw [h, onPointerMoveStep_eq]⟩
    · right
      refine ⟨q, ?_⟩
      rw [h, onPointerMoveStep_eq, setZonePos_setZonePos]

theorem drag_revert (snapOn : Bool) (s : EditorState) (zoneId : Nat) (moves : List Vec3)
    (hnd : (s.zones.map Zone.id).Nodup)
    (hinv : (validatePlacement
        (moves.foldl (fun st pt => onPointerMoveStep snapOn st zoneId pt) s) zoneId
        (posOf (moves.foldl (fun st pt => onPointerMoveStep snapOn st zoneId pt) s)
          zoneId)).valid = false) :
    dragInteraction snapOn s zoneId moves = s := by
  unfold dragInteraction onPointerUpStep
  rw [if_neg (by rw [hinv]; exact Bool.false_ne_true)]
  rcases movesFold_shape snapOn zoneId moves s with h | ⟨q, h⟩
  · rw [h]
    exact setZonePos_posOf_self s zoneId hnd
  · rw [h, setZonePos_setZonePos]
    exact setZonePos_posOf_self s zoneId hnd

theorem drag_commit (snapOn : Bool) (s : EditorState) (zoneId : Nat) (moves : List Vec3)
    (hval : (validatePlacement
        (moves.foldl (fun st pt => onPointerMoveStep snapOn st zoneId pt) s) zoneId
        (posOf (moves.foldl (fun st pt => onPointerMoveStep snapOn st zoneId pt) s)
          zoneId)).valid = true) :
    dragInteraction snapOn s zoneId moves
      = moves.foldl (fun st pt => onPointerMoveStep snapOn st zoneId pt) s := by
  unfold dragInteraction onPointerUpStep
  rw [if_pos hval]

theorem loadZones_spec (zs : List ZoneDoc) :
    ∀ st : EditorState,
      ((zs.foldl (fun st zd => addZone st zd.ztype (some (parsedPos zd.position)) 0 0)
          st).zones).map (fun z => (z.ztype, z.position))
        = st.zones.map (fun z => (z.ztype, z.position))
            ++ zs.map (fun zd => (zd.ztype, parsedPos zd.position))
      ∧ (zs.foldl (fun st zd => addZone st zd.ztype (some (parsedPos zd.position)) 0 0)
          st).habitat = st.habitat := by
  induction zs with
  | nil => intro st; simp
  | cons zd zs ih =>
    intro st
    rw [List.foldl_cons]
    obtain ⟨h1, h2⟩ := ih (addZone st zd.ztype (some (parsedPos zd.position)) 0 0)
    refine ⟨?_, by rw [h2]; rfl⟩
    rw [h1]
    show (st.zones
        ++ [(⟨st.nextId, zd.ztype, parsedPos zd.position, ⟨2, 2, 2⟩⟩ : Zone)]).map
          (fun z => (z.ztype, z.position)) ++ _ = _
    rw [List.map_append, List.map_cons, List.map_nil, List.append_assoc]
    rfl

theorem hasCollision_perm (l l' : List Zone) (h : List.Perm l' l) (zoneId : Nat) (p : Vec3) :
    hasCollision l' zoneId p = hasCollision l zoneId p := by
  unfold hasCollision
  rw [Bool.eq_iff_iff, List.any_eq_true, List.any_eq_true]
  exact exists_congr fun z => and_congr_left fun _ => h.mem_iff

theorem validatePlacement_perm (s : EditorState) (l' : List Zone)
    (h : List.Perm l' s.zones) (zoneId : Nat) (p : Vec3) :
    validatePlacement { s with zones := l' } zoneId p = validatePlacement s zoneId p := by
  unfold validatePlacement
  rw [show ({ s with zones := l' } : EditorState).zones = l' from rfl,
    show ({ s with zones := l' } : EditorState).habitat = s.habitat from rfl,
    hasCollision_perm _ _ h]

theorem loadLayout_eq (d : LayoutDoc) (t : EditorState) :
    loadLayout d t
      = d.zones.foldl (fun st zd => addZone st zd.ztype (some (parsedPos zd.position)) 0 0)
          { habitat := d.habitat, zones := [], nextId := t.nextId } := rfl

/-- C7: `computeVolume` returns `(2/3)·π·r³` for a dome, `π·r²·h` for a
cylinder, `π·r²·(h − 2r) + (4/3)·π·r³` for a capsule, with
`floorArea = π·r²` and `perCrewVolume = volume / crewCapacity`; for the dome
scenario (radius 10, height 15, crew 8) the volume is ≈ 2094.4 m³ and the
per-crew volume ≈ 261.8 m³ (π is the double `Math.PI` used by the source). -/
theorem C7_computeVolume (shape : String) (radius height : ℚ) (crew : ℤ) :
    computeVolume "dome" radius height = 2/3 * mathPI * radius ^ 3
    ∧ computeVolume "cylinder" radius height = mathPI * radius ^ 2 * height
    ∧ computeVolume "capsule" radius height
        = mathPI * radius ^ 2 * (height - 2 * radius) + 4/3 * mathPI * radius ^ 3
    ∧ floorArea radius = mathPI * radius ^ 2
    ∧ perCrewVolume shape radius height crew = computeVolume shape radius height / (crew : ℚ)
    ∧ |computeVolume "dome" 10 15 - 2094.4| < 1/20
    ∧ |perCrewVolume "dome" 10 15 8 - 261.8| < 1/20 := by
  refine ⟨?_, ?_, ?_, ?_, rfl, ?_, ?_⟩
  · show (2/3) * mathPI * radius ^ 3 = 2/3 * mathPI * radius ^ 3
    rfl
  · show mathPI * radius * radius * height = mathPI * radius ^ 2 * height
    ring
  · show mathPI * radius * radius * (height - radius * 2) + 4/3 * mathPI * radius ^ 3
      = mathPI * radius ^ 2 * (height - 2 * radius) + 4/3 * mathPI * radius ^ 3
    ring
  · show mathPI * radius * radius = mathPI * radius ^ 2
    ring
  · have h : computeVolume "dome" 10 15 = 2/3 * mathPI * 10 ^ 3 := rfl
    rw [h, abs_lt, mathPI]
    constructor <;> norm_num
  · have h : perCrewVolume "dome" 10 15 8 = 2/3 * mathPI * 10 ^ 3 / 8 := rfl
    rw [h, abs_lt, mathPI]
    constructor <;> norm_num

/-- C10: with grid snapping on (the editor's initial state), an
`onPointerMove` commit writes x and z rounded to the nearest multiple of the
1.0 grid (as integers) and always writes y = 1, and the boundary validity
computed during the move is evaluated on the snapped coordinates. -/
theorem C10_grid_snap (s : EditorState) (zoneId : Nat) (p : Vec3) :
    onPointerMoveStep true s zoneId p
      = setZonePos s zoneId ⟨((round p.x : ℤ) : ℚ), 1, ((round p.z : ℤ) : ℚ)⟩
    ∧ moveStepBoundsOk true s.habitat.radius p
      = sqrtLt (((round p.x : ℤ) : ℚ) * ((round p.x : ℤ) : ℚ)
          + ((round p.z : ℤ) : ℚ) * ((round p.z : ℤ) : ℚ)) (s.habitat.radius - 3/2) := by
  constructor
  · unfold onPointerMoveStep snapPoint
    simp [div_one, mul_one]
  · unfold moveStepBoundsOk snapPoint boundsOk planarDistSq
    simp [div_one, mul_one]

/-- C9 counterexample: duplicating a zone whose dimensions were edited to
4×2×2 produces a duplicate with the default 2×2×2 dimensions — the
dimensional attributes of the source are NOT cloned. -/
theorem C9_counterexample :
    (duplicateZone ⟨habitat10, [⟨0, "sleeping", ⟨0, 1, 0⟩, ⟨4, 2, 2⟩⟩], 1⟩
        ⟨0, "sleeping", ⟨0, 1, 0⟩, ⟨4, 2, 2⟩⟩).zones
      = [⟨0, "sleeping", ⟨0, 1, 0⟩, ⟨4, 2, 2⟩⟩, ⟨1, "sleeping", ⟨3, 1, 0⟩, ⟨2, 2, 2⟩⟩]
    ∧ (⟨1, "sleeping", ⟨3, 1, 0⟩, ⟨2, 2, 2⟩⟩ : Zone).dims
        ≠ (⟨0, "sleeping", ⟨0, 1, 0⟩, ⟨4, 2, 2⟩⟩ : Zone).dims := by
  constructor
  · simp only [duplicateZone, addZone, List.cons_append, List.nil_append]
    norm_num [Zone.mk.injEq, Vec3.mk.injEq]
  · simp only [ne_eq, Vec3.mk.injEq]
    norm_num

/-- C9 (amended): duplicating a zone clones its type, offsets the source
position by `(3, 0, 0)` and appends the new zone via `addZone` without any
validation; the layout gains exactly one zone, the source zones are
unchanged, and the duplicate receives the default 2×2×2 dimensions rather
than the source zone's dimensional attributes. -/
theorem C9_duplicateZone (s : EditorState) (zone : Zone) :
    duplicateZone s zone
      = { s with
          zones := s.zones ++ [⟨s.nextId, zone.ztype,
            ⟨zone.position.x + 3, zone.position.y + 0, zone.position.z + 0⟩, ⟨2, 2, 2⟩⟩],
          nextId := s.nextId + 1 } := rfl

/-- C8 counterexample: the zone-editor panel's `updateZonePosition` writes a
position that placement validation rejects (out of bounds at `(100,1,0)` in a
radius-10 habitat) straight onto an existing zone — position mutation does
not all flow through the validation gate. -/
theorem C8_counterexample :
    (validatePlacement stateA 0 ⟨100, 1, 0⟩).valid = false
    ∧ updateZonePosition stateA 0 100 1 0
      = ⟨habitat10, [⟨0, "sleeping", ⟨100, 1, 0⟩, ⟨2, 2, 2⟩⟩], 1⟩ := by
  constructor
  · norm_num [validatePlacement, boundsOk, hasCollision, sqrtLt, planarDistSq, distSq3,
      stateA, zoneA, habitat10]
  · rfl

/-- C8 (amended): the drag interaction is gated by placement validation —
its final state is the committed preview exactly when validation accepts the
final position, and the pre-drag state otherwise — but panel edits
(`updateZonePosition`, `resetZoneToDefaults`) write positions without
validation (see the counterexample). -/
theorem C8_drag_gated (snapOn : Bool) (s : EditorState) (zoneId : Nat) (moves : List Vec3)
    (hnd : (s.zones.map Zone.id).Nodup) :
    ((validatePlacement
        (moves.foldl (fun st pt => onPointerMoveStep snapOn st zoneId pt) s) zoneId
        (posOf (moves.foldl (fun st pt => onPointerMoveStep snapOn st zoneId pt) s)
          zoneId)).valid = true
      ∧ dragInteraction snapOn s zoneId moves
          = moves.foldl (fun st pt => onPointerMoveStep snapOn st zoneId pt) s)
    ∨ ((validatePlacement
        (moves.foldl (fun st pt => onPointerMoveStep snapOn st zoneId pt) s) zoneId
        (posOf (moves.foldl (fun st pt => onPointerMoveStep snapOn st zoneId pt) s)
          zoneId)).valid = false
      ∧ dragInteraction snapOn s zoneId moves = s) := by
  cases hv : (validatePlacement
      (moves.foldl (fun st pt => onPointerMoveStep snapOn st zoneId pt) s) zoneId
      (posOf (moves.foldl (fun st pt => onPointerMoveStep snapOn st zoneId pt) s)
        zoneId)).valid with
  | true => exact Or.inl ⟨rfl, drag_commit snapOn s zoneId moves hv⟩
  | false => exact Or.inr ⟨rfl, drag_revert snapOn s zoneId moves hnd hv⟩

/-- Witness for C8: a concrete drag on `stateA` lands in one of the two gated
outcomes. -/
theorem C8_witness :
    (stateA.zones.map Zone.id).Nodup
    ∧ (dragInteraction true stateA 0 [⟨3, 0, 11/5⟩]
        = List.foldl (fun st pt => onPointerMoveStep true st 0 pt) stateA [⟨3, 0, 11/5⟩]
      ∨ dragInteraction true stateA 0 [⟨3, 0, 11/5⟩] = stateA) := by
  refine ⟨by decide, ?_⟩
  rcases C8_drag_gated true stateA 0 [⟨3, 0, 11/5⟩] (by decide) with ⟨_, h⟩ | ⟨_, h⟩
  · exact Or.inl h
  · exact Or.inr h

/-- C6 counterexample: importing a parsed but malformed document (valid JSON
missing `habitat` and `zones`) makes `loadLayout` throw *after*
`resetHabitat()` already cleared the zones: the error is caught, but the last
good layout is NOT retained. -/
theorem C6_counterexample :
    (loadLayoutRun ⟨none, none⟩ stateA).1 = true
    ∧ importFileChange (ParseResult.ok ⟨none, none⟩) stateA ≠ stateA
    ∧ (importFileChange (ParseResult.ok ⟨none, none⟩) stateA).zones = [] := by
  refine ⟨rfl, ?_, rfl⟩
  simp [importFileChange, loadLayoutRun, resetHabitatState, stateA]

/-- C6 (amended): a JSON parse failure is recoverable and leaves the layout
unchanged; when `loadLayout` raises on a parsed malformed document the error
is caught (never fatal), but the attempted mutation is not fully discarded —
the pre-import zones are already cleared, and the habitat is already
overwritten when the document has a `habitat` but no `zones` array. -/
theorem C6_import_failure (s : EditorState) (h : Habitat) (b : Option (List ZoneDoc)) :
    importFileChange ParseResult.parseFail s = s
    ∧ importFileChange (ParseResult.ok ⟨none, b⟩) s = { s with zones := [] }
    ∧ importFileChange (ParseResult.ok ⟨some h, none⟩) s
        = { habitat := h, zones := [], nextId := s.nextId } :=
  ⟨rfl, rfl, rfl⟩

/-- C5: a successful import is a full replace: the habitat spec is reset from
the document, and the resulting zones are exactly the document's zones in
file order (types and parsed positions), independent of the pre-import zones;
importing a document with an empty zones array yields zero zones and habitat
fields matching the document exactly. -/
theorem C5_import_full_replace (s : EditorState) (d : LayoutDoc) :
    (loadLayout d s).habitat = d.habitat
    ∧ (loadLayout d s).zones.map (fun z => (z.ztype, z.position))
        = d.zones.map (fun zd => (zd.ztype, parsedPos zd.position))
    ∧ loadLayout { habitat := d.habitat, zones := [] } s
        = { habitat := d.habitat, zones := [], nextId := s.nextId } := by
  obtain ⟨h1, h2⟩ := loadZones_spec d.zones
    { habitat := d.habitat, zones := [], nextId := s.nextId }
  refine ⟨?_, ?_, rfl⟩
  · rw [loadLayout_eq]
    exact h2
  · rw [loadLayout_eq, h1]
    simp

/-- C4: exporting a layout and importing the exported document reproduces the
habitat parameters exactly and the zones with the same types, where each
position equals the original rounded to 2 decimal places (the positions
travel as `toFixed(2)` decimal strings and are parsed back by `parseFloat`). -/
theorem C4_export_import_roundtrip (s t : EditorState) :
    (loadLayout (exportLayout s) t).habitat = s.habitat
    ∧ (loadLayout (exportLayout s) t).zones.map (fun z => (z.ztype, z.position))
        = s.zones.map (fun z => (z.ztype, round2v z.position))
    ∧ (loadLayout (exportLayout s) t).zones.length = s.zones.length := by
  obtain ⟨h1, h2⟩ := loadZones_spec (exportLayout s).zones
    { habitat := (exportLayout s).habitat, zones := [], nextId := t.nextId }
  have hzones : (loadLayout (exportLayout s) t).zones.map (fun z => (z.ztype, z.position))
      = s.zones.map (fun z => (z.ztype, round2v z.position)) := by
    rw [loadLayout_eq, h1, List.map_nil, List.nil_append]
    show (s.zones.map (fun z =>
        (⟨z.ztype, ⟨toFixed2 z.position.x, toFixed2 z.position.y, toFixed2 z.position.z⟩⟩
          : ZoneDoc))).map (fun zd => (zd.ztype, parsedPos zd.position)) = _
    rw [List.map_map]
    apply List.map_congr_left
    intro z _hz
    show (z.ztype, parsedPos
        ⟨toFixed2 z.position.x, toFixed2 z.position.y, toFixed2 z.position.z⟩)
      = (z.ztype, round2v z.position)
    unfold parsedPos round2v
    rw [parseFloatQ_toFixed2, parseFloatQ_toFixed2, parseFloatQ_toFixed2]
  refine ⟨?_, hzones, ?_⟩
  · rw [loadLayout_eq]
    exact h2
  · have hlen := congrArg List.length hzones
    rwa [List.length_map, List.length_map] at hlen

/-- C3: when the final position of a drag is validated and found invalid, the
interaction leaves the layout exactly as it was before the drag — the zone is
returned to its pre-drag position (zone ids are unique per the layout
invariant). -/
theorem C3_invalid_move_reverts (snapOn : Bool) (s : EditorState) (zoneId : Nat)
    (moves : List Vec3) (hnd : (s.zones.map Zone.id).Nodup)
    (hinv : (validatePlacement
        (moves.foldl (fun st pt => onPointerMoveStep snapOn st zoneId pt) s) zoneId
        (posOf (moves.foldl (fun st pt => onPointerMoveStep snapOn st zoneId pt) s)
          zoneId)).valid = false) :
    dragInteraction snapOn s zoneId moves = s :=
  drag_revert snapOn s zoneId moves hnd hinv

/-- Witness for C3: dragging `zoneA` to `(20, 1, 20)` (far outside the
radius-10 boundary) is invalid, and the interaction returns the state
unchanged. -/
theorem C3_witness :
    (stateA.zones.map Zone.id).Nodup
    ∧ (validatePlacement
        (List.foldl (fun st pt => onPointerMoveStep false st 0 pt) stateA [⟨20, 0, 20⟩]) 0
        (posOf (List.foldl (fun st pt => onPointerMoveStep false st 0 pt) stateA
          [⟨20, 0, 20⟩]) 0)).valid = false
    ∧ dragInteraction false stateA 0 [⟨20, 0, 20⟩] = stateA := by
  have hnd : (stateA.zones.map Zone.id).Nodup := by decide
  have hinv : (validatePlacement
      (List.foldl (fun st pt => onPointerMoveStep false st 0 pt) stateA [⟨20, 0, 20⟩]) 0
      (posOf (List.foldl (fun st pt => onPointerMoveStep false st 0 pt) stateA
        [⟨20, 0, 20⟩]) 0)).valid = false := by
    norm_num [validatePlacement, boundsOk, hasCollision, sqrtLt, planarDistSq, distSq3,
      onPointerMoveStep, setZonePos, posOf, stateA, zoneA, habitat10, List.find?]
  exact ⟨hnd, hinv, C3_invalid_move_reverts false stateA 0 [⟨20, 0, 20⟩] hnd hinv⟩

/-- C1 counterexample: at planar distance `9 ≥ 10 − 1.5` with another zone one
unit away, the validation reports `COLLISION`, not `OUT_OF_BOUNDS` — the
reported reason is not `OUT_OF_BOUNDS` *exactly when* `d ≥ radius − 1.5`,
because collision reporting takes precedence. -/
theorem C1_counterexample :
    ((stateC1.habitat.radius : ℝ)) - 1.5 ≤ planarDistR ⟨9, 1, 0⟩
    ∧ (validatePlacement stateC1 0 ⟨9, 1, 0⟩).reason = Reason.COLLISION
    ∧ (validatePlacement stateC1 0 ⟨9, 1, 0⟩).reason ≠ Reason.OUT_OF_BOUNDS := by
  refine ⟨?_, ?_, ?_⟩
  · show ((10 : ℚ) : ℝ) - 1.5 ≤ planarDistR ⟨9, 1, 0⟩
    rw [planarDistR_eq]
    have h81 : ((planarDistSq ⟨9, 1, 0⟩ : ℚ) : ℝ) = 81 := by norm_num [planarDistSq]
    rw [h81, show (81 : ℝ) = 9 ^ 2 by norm_num, Real.sqrt_sq (by norm_num : (0:ℝ) ≤ 9)]
    norm_num
  · norm_num [validatePlacement, boundsOk, hasCollision, sqrtLt, planarDistSq, distSq3,
      stateC1, habitat10]
  · norm_num [validatePlacement, boundsOk, hasCollision, sqrtLt, planarDistSq, distSq3,
      stateC1, habitat10]
    decide

/-- C1 (amended): the boundary check passes exactly when the planar distance
`d = sqrt(x² + z²)` is strictly less than `radius − 1.5` (so a position at
exactly `radius − 1.5` fails it), and the validation reports `OUT_OF_BOUNDS`
exactly when `d ≥ radius − 1.5` AND no other zone is within 2.5 of the
proposed position (collision reporting takes precedence). -/
theorem C1_bounds_check (s : EditorState) (zoneId : Nat) (p : Vec3) :
    ((validatePlacement s zoneId p).reason = Reason.OUT_OF_BOUNDS
      ↔ ((s.habitat.radius : ℝ) - 1.5 ≤ planarDistR p
          ∧ hasCollision s.zones zoneId p = false))
    ∧ (boundsOk s.habitat.radius p = true ↔ planarDistR p < (s.habitat.radius : ℝ) - 1.5)
    := by
  constructor
  · rw [validatePlacement_reason_oob_iff]
    constructor
    · rintro ⟨h1, h2⟩
      refine ⟨?_, h2⟩
      rw [← Bool.not_eq_true, boundsOk_iff] at h1
      exact not_lt.mp h1
    · rintro ⟨h1, h2⟩
      refine ⟨?_, h2⟩
      rw [← Bool.not_eq_true, boundsOk_iff]
      exact not_lt.mpr h1
  · exact boundsOk_iff _ _

/-- C2: the validation reports `COLLISION` exactly when some other zone
(id ≠ the moved zone's id) lies at Euclidean 3D distance strictly below 2.5
from the proposed position (so a pair at exactly 2.5 is not a collision), and
the outcome is invariant under reordering of the zone list. -/
theorem C2_collision_check (s : EditorState) (zoneId : Nat) (p : Vec3)
    (l' : List Zone) (hperm : List.Perm l' s.zones) :
    ((validatePlacement s zoneId p).reason = Reason.COLLISION
      ↔ ∃ z ∈ s.zones, z.id ≠ zoneId ∧ dist3R p z.position < 2.5)
    ∧ validatePlacement { s with zones := l' } zoneId p = validatePlacement s zoneId p :=
  ⟨(validatePlacement_reason_collision_iff s zoneId p).trans
      (hasCollision_iff_exists s.zones zoneId p),
    validatePlacement_perm s l' hperm zoneId p⟩

/-- Witness for C2: the spec's scenario — zones at `(0,1,0)` and `(2,1,0)`,
distance 2.0 < 2.5 — with the zone list reversed as the permutation. -/
theorem C2_witness :
    List.Perm [zoneB, zoneA] stateAB.zones
    ∧ ((validatePlacement stateAB 0 ⟨0, 1, 0⟩).reason = Reason.COLLISION
        ↔ ∃ z ∈ stateAB.zones, z.id ≠ 0 ∧ dist3R ⟨0, 1, 0⟩ z.position < 2.5)
    ∧ validatePlacement { stateAB with zones := [zoneB, zoneA] } 0 ⟨0, 1, 0⟩
        = validatePlacement stateAB 0 ⟨0, 1, 0⟩ := by
  have hperm : List.Perm [zoneB, zoneA] stateAB.zones := by
    show List.Perm [zoneB, zoneA] [zoneA, zoneB]
    exact List.Perm.swap zoneA zoneB []
  have h := C2_collision_check stateAB 0 ⟨0, 1, 0⟩ [zoneB, zoneA] hperm
  exact ⟨hperm, h.1, h.2⟩

end Orb
